import Mathlib

/-!
Verification of the env-file synchronisation tool (heroku_env.py).

Python strings are modelled as lists of characters.  The parsing loop of
`upload_env`, the serialisation of `write_env`, and the orchestration of
`dump_env` / `upload_env` around the remote client are embedded as
executable Lean functions, mirroring the source line by line.
-/

/-- Python strings modelled as lists of characters (code points). -/
abbrev PyStr := List Char

/-- Characters removed by the str.strip() calls in the source (the ASCII
whitespace characters Python strips). -/
def pyIsSpace (c : Char) : Bool :=
  c = ' ' || c = '\t' || c = '\n' || c = '\r' || c = '\x0b' || c = '\x0c'

/-- Model of Python str.lstrip(). -/
def lstrip (s : PyStr) : PyStr := s.dropWhile pyIsSpace

/-- Model of Python str.rstrip(). -/
def rstrip (s : PyStr) : PyStr := (s.reverse.dropWhile pyIsSpace).reverse

/-- Model of Python str.strip(), applied to each line in upload_env. -/
def strip (s : PyStr) : PyStr := rstrip (lstrip s)

/-- Model of Python s.split(pat, 1) for a nonempty pattern pat: the parts
before and after the first occurrence of pat in s, or none when pat does
not occur in s (so s.split(pat, 1) has length 1). -/
def splitFirst (pat : PyStr) : PyStr → Option (PyStr × PyStr)
  | [] => none
  | c :: rest =>
    if pat.isPrefixOf (c :: rest) then some ([], (c :: rest).drop pat.length)
    else
      match splitFirst pat rest with
      | some p => some (c :: p.1, p.2)
      | none => none

/-- Python dict assignment d[k] = v on an insertion-ordered dictionary:
update in place when the key exists, append otherwise. -/
def dictSet (d : List (PyStr × Option PyStr)) (k : PyStr) (v : Option PyStr) :
    List (PyStr × Option PyStr) :=
  if d.any (fun p => p.1 == k) then
    d.map (fun p => if p.1 == k then (k, v) else p)
  else d ++ [(k, v)]

/-- State threaded through the line loop of upload_env: the accumulated
config dict, the use_alt flag and the last captured alt_value. -/
structure ParseState where
  config : List (PyStr × Option PyStr)
  use_alt : Bool
  alt_value : Option PyStr
  deriving Repr, DecidableEq

/-- One iteration of the for-loop of upload_env on a single raw line,
following the source: strip, skip blanks, handle comments (capturing the
text after the first "alt_value=" when set_alt is on), then split
key-value lines on the first "=" and record them, honouring the use_alt
state exactly as the source does (including the early continue, before
the use_alt reset, when the captured alternate value is empty). -/
def processLine (set_alt : Bool) (st : ParseState) (rawLine : PyStr) : ParseState :=
  let line := strip rawLine
  if line = [] then st
  else if line.head? = some '#' then
    if set_alt then
      match splitFirst "alt_value=".toList line with
      | some p => { st with alt_value := some p.2, use_alt := true }
      | none => st
    else st
  else
    match splitFirst ['='] line with
    | none => st
    | some kv =>
      let key := kv.1
      if st.use_alt then
        if st.alt_value = some [] then st
        else
          let value : Option PyStr :=
            if st.alt_value = some ['-'] then none else st.alt_value
          let st1 : ParseState := { st with use_alt := false }
          if key = [] then st1
          else { st1 with config := dictSet st1.config key value }
      else
        if key = [] then st
        else { st with config := dictSet st.config key (some kv.2) }

/-- Model of Python text-file line iteration: split the content on the
newline character (a trailing empty piece is harmless: blank lines are
skipped by the loop). -/
def splitLines (s : PyStr) : List PyStr := s.splitOn '\n'

/-- Parsing phase of upload_env: fold the line loop over the file lines,
starting from config_dict = {}, use_alt = False, alt_value = None. -/
def upload_parse (set_alt : Bool) (lines : List PyStr) : ParseState :=
  lines.foldl (processLine set_alt) ⟨[], false, none⟩

/-- Config mapping produced by the parsing phase of upload_env on the
given file content. -/
def parseUpload (s : String) (set_alt : Bool) : List (PyStr × Option PyStr) :=
  (upload_parse set_alt (splitLines s.toList)).config

/-- Content written by write_env: one key=value line per entry, joined by
a newline character. -/
def write_env_content (d : List (PyStr × PyStr)) : PyStr :=
  List.intercalate ['\n'] (d.map (fun p => p.1 ++ '=' :: p.2))

/-- Processing a line that is blank after stripping, or is a comment that
does not contain the directive marker, leaves the parser state unchanged. -/
theorem processLine_neutral (set_alt : Bool) (st : ParseState) (l : PyStr)
    (h : strip l = [] ∨
      ((strip l).head? = some '#' ∧
        splitFirst "alt_value=".toList (strip l) = none)) :
    processLine set_alt st l = st := by
  rcases h with h | ⟨h1, h2⟩
  · simp [processLine, h]
  · have hne : strip l ≠ [] := by
      intro he
      rw [he] at h1
      simp at h1
    by_cases hs : set_alt
    · have h2a : splitFirst
          ('a' :: 'l' :: 't' :: '_' :: 'v' :: 'a' :: 'l' :: 'u' :: 'e'
            :: '=' :: []) (strip l) = none := h2
      simp [processLine, hne, h1, h2a, hs]
    · simp [processLine, hne, h1, hs]

/-- Folding the line loop over a list of neutral lines leaves the parser
state unchanged. -/
theorem foldl_neutral (set_alt : Bool) (st : ParseState) (mid : List PyStr)
    (h : ∀ l ∈ mid, strip l = [] ∨
      ((strip l).head? = some '#' ∧
        splitFirst "alt_value=".toList (strip l) = none)) :
    mid.foldl (processLine set_alt) st = st := by
  induction mid with
  | nil => rfl
  | cons a t ih =>
    rw [List.foldl_cons, processLine_neutral set_alt st a (h a (by simp))]
    exact ih (fun l hl => h l (by simp [hl]))

/-- C3: parsing "# alt_value=baz\nFOO=bar" with alt mode on yields
{FOO: "baz"} (the directive value replaces the literal value), and with
alt mode off yields {FOO: "bar"} (the directive is ignored). -/
theorem C3_directive_replaces_value :
    parseUpload "# alt_value=baz\nFOO=bar" true
      = [("FOO".toList, some "baz".toList)] ∧
    parseUpload "# alt_value=baz\nFOO=bar" false
      = [("FOO".toList, some "bar".toList)] := by
  constructor <;> rfl

/-- C5: a directive comment immediately followed by another directive
comment is silently overwritten: the next key-value line receives the
second directive value. -/
theorem C5_second_directive_overwrites :
    parseUpload "# alt_value=a\n# alt_value=b\nFOO=x" true
      = [("FOO".toList, some "b".toList)] := by
  rfl

/-- C7: an alternate value of exactly "-" sets the key's value to null
(None), the explicit deletion marker. -/
theorem C7_dash_is_deletion_marker :
    parseUpload "# alt_value=-\nFOO=bar" true = [("FOO".toList, none)] := by
  rfl

/-- C8: an empty alternate value makes the following key-value entry be
skipped entirely: no key is recorded. -/
theorem C8_empty_alt_skips_entry :
    parseUpload "# alt_value=\nFOO=bar" true = [] := by
  rfl

/-- C1 counterexample: parsing "# alt_value=\nA=1\nB=2" with alt mode on
does not yield {B: "2"}: the empty alternate value makes the loop skip
each key-value line before the use_alt reset is reached. -/
theorem C1_counterexample :
    parseUpload "# alt_value=\nA=1\nB=2" true
      ≠ [("B".toList, some "2".toList)] := by
  decide

/-- C1 (amended): when the captured alternate value is the empty string,
a key-value line is skipped before the use_alt reset, so the flag is NOT
consumed: any later non-comment line leaves the state unchanged, and
parsing "# alt_value=\nA=1\nB=2" with alt mode on yields the empty
mapping with use_alt still set. -/
theorem C1_empty_alt_not_consumed :
    (∀ (st : ParseState) (line : PyStr), st.use_alt = true →
      st.alt_value = some [] → (strip line).head? ≠ some '#' →
      processLine true st line = st) ∧
    (upload_parse true (splitLines "# alt_value=\nA=1\nB=2".toList)).config
      = [] ∧
    (upload_parse true (splitLines "# alt_value=\nA=1\nB=2".toList)).use_alt
      = true := by
  refine ⟨?_, by decide, by decide⟩
  intro st line h1 h2 h3
  by_cases hb : strip line = []
  · simp [processLine, hb]
  · cases hsp : splitFirst ['='] (strip line) with
    | none => simp [processLine, hb, h3, hsp]
    | some kv => simp [processLine, hb, h3, hsp, h1, h2]

/-- C1 witness: the amended fact applied at a concrete state and line. -/
theorem C1_empty_alt_not_consumed_witness :
    processLine true ⟨[], true, some []⟩ "A=1".toList
      = ⟨[], true, some []⟩ :=
  C1_empty_alt_not_consumed.1 ⟨[], true, some []⟩ "A=1".toList rfl rfl
    (by decide)

/-- C4: the use-alt flag set by a directive persists across any number of
intervening blank lines and non-directive comment lines, and the next
key-value line still receives the alternate value. -/
theorem C4_flag_persists_across_neutral_lines :
    ∀ mid : List PyStr,
      (∀ l ∈ mid, strip l = [] ∨
        ((strip l).head? = some '#' ∧
          splitFirst "alt_value=".toList (strip l) = none)) →
      (upload_parse true
        ("# alt_value=baz".toList :: mid ++ ["FOO=bar".toList])).config
        = [("FOO".toList, some "baz".toList)] := by
  intro mid h
  show (List.foldl (processLine true)
    (processLine true ⟨[], false, none⟩ "# alt_value=baz".toList)
    (mid ++ ["FOO=bar".toList])).config = _
  rw [show processLine true ⟨[], false, none⟩ "# alt_value=baz".toList
      = ⟨[], true, some "baz".toList⟩ from by decide,
    List.foldl_append, foldl_neutral true _ mid h]
  decide

/-- C4 witness: the persistence fact at the concrete middle lines of the
example "# alt_value=baz\n\n# note\nFOO=bar". -/
theorem C4_flag_persists_witness :
    (upload_parse true
      ("# alt_value=baz".toList ::
        ["".toList, "# note".toList] ++ ["FOO=bar".toList])).config
      = [("FOO".toList, some "baz".toList)] :=
  C4_flag_persists_across_neutral_lines ["".toList, "# note".toList]
    (by decide)

/-- Errors raised by the tool, from the exceptions module the source
imports. -/
inductive HerokuErr
  | invalidAPIKey
  | invalidHerokuApp
  | rateLimitExceeded
  | herokuRun
  deriving Repr, DecidableEq

/-- Remote API calls the tool can issue, recorded as a trace. -/
inductive ApiCall
  | appsList
  | ratelimitCheck
  | configFetch
  | updateConfig
  deriving Repr, DecidableEq

/-- Model of the process environment and of the remote service as seen
through the heroku3 client: whether HEROKU_API_KEY is present in
os.environ, whether the service accepts the key, the app names registered
for the key, the remaining rate limit, the remote config (read by dump),
the reply the service gives to an update_config call, and whether the
local file write succeeds. -/
structure HerokuWorld where
  hasApiKey : Bool
  keyValid : Bool
  appNames : List PyStr
  ratelimitRemaining : Int
  configVars : List (PyStr × PyStr)
  updateReply : List (PyStr × Option PyStr) → List (PyStr × PyStr)
  writeOk : Bool

/-- Model of raise_for_rate_limit: query the remaining rate limit and
raise RateLimitExceededError when it is below 1. -/
def raise_for_rate_limit (w : HerokuWorld) :
    Except HerokuErr Unit × List ApiCall :=
  (if w.ratelimitRemaining < 1 then Except.error HerokuErr.rateLimitExceeded
   else Except.ok (), [ApiCall.ratelimitCheck])

/-- Model of get_heroku_app: read HEROKU_API_KEY (a KeyError when the
variable is missing reaches the same handler as a missing app, so it
yields InvalidHerokuAppError), list the apps (an HTTPError on a rejected
key yields InvalidAPIKeyError), index the app by name (a KeyError yields
InvalidHerokuAppError), then check the rate limit.  Returns the unit app
handle together with the trace of remote calls issued. -/
def get_heroku_app (w : HerokuWorld) (app_name : PyStr) :
    Except HerokuErr Unit × List ApiCall :=
  if !w.hasApiKey then (Except.error HerokuErr.invalidHerokuApp, [])
  else if !w.keyValid then
    (Except.error HerokuErr.invalidAPIKey, [ApiCall.appsList])
  else if app_name ∉ w.appNames then
    (Except.error HerokuErr.invalidHerokuApp, [ApiCall.appsList])
  else
    match raise_for_rate_limit w with
    | (Except.error e, t) => (Except.error e, ApiCall.appsList :: t)
    | (Except.ok _, t) => (Except.ok (), ApiCall.appsList :: t)

/-- Model of dump_env: resolve the app (this includes the rate-limit
check), fetch its config, write it with write_env, and report whether the
write succeeded (the Bool selects between the two echo messages). -/
def dump_env (w : HerokuWorld) (app_name : PyStr) :
    Except HerokuErr Bool × List ApiCall :=
  match get_heroku_app w app_name with
  | (Except.error e, t) => (Except.error e, t)
  | (Except.ok _, t) => (Except.ok w.writeOk, t ++ [ApiCall.configFetch])

/-- Model of update_config_vars: one update_config call against the app,
returning the reply dict. -/
def update_config_vars (w : HerokuWorld)
    (config_dict : List (PyStr × Option PyStr)) :
    List (PyStr × PyStr) × List ApiCall :=
  (w.updateReply config_dict, [ApiCall.updateConfig])

/-- Model of upload_env: parse the file content under the set_alt flag,
resolve the app (including the rate-limit check), push the parsed dict in
one update_config call, and raise HerokuRunError when the reply dict is
falsy (empty); otherwise report success. -/
def upload_env (w : HerokuWorld) (app_name : PyStr) (fileContent : PyStr)
    (set_alt : Bool) : Except HerokuErr Unit × List ApiCall :=
  let config_dict := (upload_parse set_alt (splitLines fileContent)).config
  match get_heroku_app w app_name with
  | (Except.error e, t) => (Except.error e, t)
  | (Except.ok _, t) =>
    let r := update_config_vars w config_dict
    if r.1 = [] then (Except.error HerokuErr.herokuRun, t ++ r.2)
    else (Except.ok (), t ++ r.2)

/-- Concrete world with an exhausted rate limit, used as a witness. -/
def worldRateLimited : HerokuWorld :=
  ⟨true, true, [['a']], 0, [], fun _ => [], true⟩

/-- Concrete healthy world whose update call replies with the empty dict,
used as a witness. -/
def worldEmptyReply : HerokuWorld :=
  ⟨true, true, [['a']], 10, [], fun _ => [], true⟩

/-- Concrete world whose process environment lacks HEROKU_API_KEY, used
as a witness. -/
def worldNoKey : HerokuWorld :=
  ⟨false, true, [['a']], 10, [], fun _ => [⟨['k'], ['v']⟩], true⟩

/-- C6: with the key present and accepted and the app registered, when
fewer than 1 API calls remain both dump and upload fail with
RateLimitExceededError and neither issues a config fetch or a config
update call. -/
theorem C6_rate_limit_blocks_both_operations (w : HerokuWorld) (n : PyStr)
    (f : PyStr) (a : Bool) (hk : w.hasApiKey = true)
    (hv : w.keyValid = true) (ha : n ∈ w.appNames)
    (hr : w.ratelimitRemaining < 1) :
    (dump_env w n).1 = Except.error HerokuErr.rateLimitExceeded ∧
    ApiCall.configFetch ∉ (dump_env w n).2 ∧
    ApiCall.updateConfig ∉ (dump_env w n).2 ∧
    (upload_env w n f a).1 = Except.error HerokuErr.rateLimitExceeded ∧
    ApiCall.configFetch ∉ (upload_env w n f a).2 ∧
    ApiCall.updateConfig ∉ (upload_env w n f a).2 := by
  have hg : get_heroku_app w n
      = (Except.error HerokuErr.rateLimitExceeded,
         [ApiCall.appsList, ApiCall.ratelimitCheck]) := by
    simp [get_heroku_app, raise_for_rate_limit, hk, hv, ha, hr]
  refine ⟨?_, ?_, ?_, ?_, ?_, ?_⟩ <;> simp [dump_env, upload_env, hg]

/-- C6 witness: the rate-limit fact at a concrete exhausted world. -/
theorem C6_rate_limit_witness :
    (dump_env worldRateLimited ['a']).1
      = Except.error HerokuErr.rateLimitExceeded ∧
    ApiCall.configFetch ∉ (dump_env worldRateLimited ['a']).2 ∧
    ApiCall.updateConfig ∉ (dump_env worldRateLimited ['a']).2 ∧
    (upload_env worldRateLimited ['a'] [] false).1
      = Except.error HerokuErr.rateLimitExceeded ∧
    ApiCall.configFetch ∉ (upload_env worldRateLimited ['a'] [] false).2 ∧
    ApiCall.updateConfig ∉ (upload_env worldRateLimited ['a'] [] false).2 :=
  C6_rate_limit_blocks_both_operations worldRateLimited ['a'] [] false
    rfl rfl (by decide) (by decide)

/-- C9: with the key present and accepted, the app registered and rate
limit available, upload fails with HerokuRunError exactly when the update
reply dict is empty (falsy), and reports success exactly when the reply
is non-empty. -/
theorem C9_update_fails_iff_empty_reply (w : HerokuWorld) (n : PyStr)
    (f : PyStr) (a : Bool) (hk : w.hasApiKey = true)
    (hv : w.keyValid = true) (ha : n ∈ w.appNames)
    (hr : ¬ w.ratelimitRemaining < 1) :
    ((upload_env w n f a).1 = Except.error HerokuErr.herokuRun ↔
      w.updateReply (upload_parse a (splitLines f)).config = []) ∧
    ((upload_env w n f a).1 = Except.ok () ↔
      w.updateReply (upload_parse a (splitLines f)).config ≠ []) := by
  have hg : get_heroku_app w n
      = (Except.ok (), [ApiCall.appsList, ApiCall.ratelimitCheck]) := by
    simp [get_heroku_app, raise_for_rate_limit, hk, hv, ha, hr]
  by_cases he : w.updateReply (upload_parse a (splitLines f)).config = [] <;>
    simp [upload_env, update_config_vars, hg, he]

/-- C9 witness: the failure direction at a concrete world whose update
call replies with the empty dict. -/
theorem C9_update_fails_witness :
    ((upload_env worldEmptyReply ['a'] [] false).1
        = Except.error HerokuErr.herokuRun ↔
      worldEmptyReply.updateReply
        (upload_parse false (splitLines [])).config = []) ∧
    ((upload_env worldEmptyReply ['a'] [] false).1 = Except.ok () ↔
      worldEmptyReply.updateReply
        (upload_parse false (splitLines [])).config ≠ []) :=
  C9_update_fails_iff_empty_reply worldEmptyReply ['a'] [] false
    rfl rfl (by decide) (by decide)

/-- C10: when HEROKU_API_KEY is absent from the process environment, the
KeyError raised by os.environ is caught by the same except clause as a
missing app, so get_heroku_app fails with InvalidHerokuAppError and not
with InvalidAPIKeyError. -/
theorem C10_missing_key_reports_missing_app (w : HerokuWorld) (n : PyStr)
    (hk : w.hasApiKey = false) :
    (get_heroku_app w n).1 = Except.error HerokuErr.invalidHerokuApp ∧
    (get_heroku_app w n).1 ≠ Except.error HerokuErr.invalidAPIKey := by
  simp [get_heroku_app, hk]

/-- C10 witness: the missing-key fact at a concrete world without the
credential variable. -/
theorem C10_missing_key_witness :
    (get_heroku_app worldNoKey ['a']).1
      = Except.error HerokuErr.invalidHerokuApp ∧
    (get_heroku_app worldNoKey ['a']).1
      ≠ Except.error HerokuErr.invalidAPIKey :=
  C10_missing_key_reports_missing_app worldNoKey ['a'] rfl

/-- Stripping on the left is the identity when the first character is not
whitespace. -/
theorem lstrip_eq_self (s : PyStr)
    (h : s.head?.all (fun c => !pyIsSpace c) = true) : lstrip s = s := by
  cases s with
  | nil => rfl
  | cons c t =>
    simp [Option.all] at h
    simp [lstrip, List.dropWhile_cons, h]

/-- Stripping on the right is the identity when the last character is not
whitespace. -/
theorem rstrip_eq_self (s : PyStr)
    (h : s.getLast?.all (fun c => !pyIsSpace c) = true) : rstrip s = s := by
  rcases List.eq_nil_or_concat s with rfl | ⟨s2, c, rfl⟩
  · rfl
  · simp only [List.concat_eq_append] at h ⊢
    rw [List.getLast?_concat] at h
    simp [Option.all] at h
    simp [rstrip, List.reverse_append, List.dropWhile_cons, h]

/-- Stripping is the identity when neither end of the string is
whitespace. -/
theorem strip_eq_self (s : PyStr)
    (h1 : s.head?.all (fun c => !pyIsSpace c) = true)
    (h2 : s.getLast?.all (fun c => !pyIsSpace c) = true) : strip s = s := by
  rw [strip, lstrip_eq_self s h1, rstrip_eq_self s h2]

/-- Splitting on the first "=" of a line key=value recovers the key and
the value when the key itself contains no "=". -/
theorem splitFirst_key (k v : PyStr) (h : '=' ∉ k) :
    splitFirst ['='] (k ++ '=' :: v) = some (k, v) := by
  induction k with
  | nil => simp [splitFirst, List.isPrefixOf]
  | cons c t ih =>
    have hcne : c ≠ '=' := fun he => h (by simp [he])
    have hc : ('=' == c) = false := beq_eq_false_iff_ne.mpr (Ne.symm hcne)
    have ht : '=' ∉ t := fun hm => h (List.mem_cons_of_mem c hm)
    simp [splitFirst, List.isPrefixOf, hc, ih ht]

/-- Python dict assignment appends the entry when the key is new. -/
theorem dictSet_of_not_mem (d : List (PyStr × Option PyStr)) (k : PyStr)
    (v : Option PyStr) (h : ∀ q ∈ d, q.1 ≠ k) :
    dictSet d k v = d ++ [(k, v)] := by
  have hany : d.any (fun p => p.1 == k) = false := by
    rw [List.any_eq_false]
    intro q hq
    simpa using h q hq
  simp [dictSet, hany]

/-- With alt mode off (and the use_alt flag clear), processing a
well-formed line key=value records the pair in the config dict. -/
theorem processLine_kv (st : ParseState) (k v : PyStr)
    (hst : st.use_alt = false) (hk1 : k ≠ []) (hk2 : '=' ∉ k)
    (hk3 : k.head? ≠ some '#')
    (hk4 : k.head?.all (fun c => !pyIsSpace c) = true)
    (hv2 : v.getLast?.all (fun c => !pyIsSpace c) = true) :
    processLine false st (k ++ '=' :: v)
      = { st with config := dictSet st.config k (some v) } := by
  have hhead : (k ++ '=' :: v).head? = k.head? := by
    cases k with
    | nil => exact absurd rfl hk1
    | cons a t => simp
  have hlast : (k ++ '=' :: v).getLast?.all (fun c => !pyIsSpace c)
      = true := by
    rcases List.eq_nil_or_concat v with rfl | ⟨v2, c0, rfl⟩
    · rw [show k ++ '=' :: ([] : PyStr) = k ++ ['='] from rfl,
        List.getLast?_concat]
      rfl
    · simp only [List.concat_eq_append] at hv2 ⊢
      rw [show k ++ '=' :: (v2 ++ [c0]) = (k ++ '=' :: v2) ++ [c0] from
        by simp, List.getLast?_concat]
      rw [List.getLast?_concat] at hv2
      exact hv2
  have hstrip : strip (k ++ '=' :: v) = k ++ '=' :: v :=
    strip_eq_self _ (by rw [hhead]; exact hk4) hlast
  have hne : k ++ '=' :: v ≠ [] := by simp
  have hh : (k ++ '=' :: v).head? ≠ some '#' := by
    rw [hhead]
    exact hk3
  simp [processLine, hstrip, hne, hh, hk3, splitFirst_key k v hk2, hst,
    hk1]

/-- Folding the line loop (alt mode off) over well-formed key=value lines
with pairwise distinct keys, none already present in the accumulated
dict, appends the pairs in order. -/
theorem foldl_kv_lines (M : List (PyStr × PyStr)) :
    ∀ acc : List (PyStr × Option PyStr),
      (∀ p ∈ M, p.1 ≠ [] ∧ '=' ∉ p.1 ∧ p.1.head? ≠ some '#' ∧
        p.1.head?.all (fun c => !pyIsSpace c) = true) →
      (∀ p ∈ M, p.2.getLast?.all (fun c => !pyIsSpace c) = true) →
      (M.map Prod.fst).Nodup →
      (∀ p ∈ M, ∀ q ∈ acc, q.1 ≠ p.1) →
      List.foldl (processLine false) ⟨acc, false, none⟩
        (M.map (fun p => p.1 ++ '=' :: p.2))
        = ⟨acc ++ M.map (fun p => (p.1, some p.2)), false, none⟩ := by
  induction M with
  | nil =>
    intro acc _ _ _ _
    simp
  | cons p M ih =>
    intro acc hk hv hnd hdisj
    obtain ⟨hk1, hk2, hk3, hk4⟩ := hk p (by simp)
    have hnm : p.1 ∉ M.map Prod.fst :=
      (List.nodup_cons.mp (by simpa using hnd)).1
    rw [List.map_cons, List.foldl_cons,
      processLine_kv ⟨acc, false, none⟩ p.1 p.2 rfl hk1 hk2 hk3 hk4
        (hv p (by simp))]
    show List.foldl (processLine false)
      ⟨dictSet acc p.1 (some p.2), false, none⟩
      (M.map (fun p => p.1 ++ '=' :: p.2))
      = ⟨acc ++ (p.1, some p.2) :: M.map (fun p => (p.1, some p.2)),
        false, none⟩
    rw [dictSet_of_not_mem acc p.1 (some p.2)
      (fun q hq => hdisj p (by simp) q hq)]
    rw [ih (acc ++ [(p.1, some p.2)])
      (fun q hq => hk q (List.mem_cons_of_mem p hq))
      (fun q hq => hv q (List.mem_cons_of_mem p hq))
      (List.nodup_cons.mp (by simpa using hnd)).2
      ?_]
    · simp
    · intro q2 hq2 q hq
      rcases List.mem_append.mp hq with hq | hq
      · exact hdisj q2 (List.mem_cons_of_mem p hq2) q hq
      · have hq1 : q = (p.1, some p.2) := by simpa using hq
        rw [hq1]
        intro he
        exact hnm (he ▸ List.mem_map_of_mem Prod.fst hq2)

/-- C2 counterexample: the non-empty mapping {"#A": "1"} has values free
of "=" and newlines, yet writing it and parsing the file back (alt mode
off) loses the entry, because the written line "#A=1" is read back as a
comment. -/
theorem C2_counterexample :
    (upload_parse false
      (splitLines (write_env_content [("#A".toList, "1".toList)]))).config
      ≠ [("#A".toList, some "1".toList)] := by
  decide

/-- C2 (amended): writing a non-empty mapping and parsing it back with
alt mode off reproduces the mapping when, in addition, every key is
non-empty, contains no "=" and no newline, does not start with "#" or
whitespace, every value contains no "=" and no newline and does not end
with whitespace, and the keys are pairwise distinct. -/
theorem C2_write_parse_roundtrip (M : List (PyStr × PyStr)) (hne : M ≠ [])
    (hnd : (M.map Prod.fst).Nodup)
    (hk : ∀ p ∈ M, p.1 ≠ [] ∧ '=' ∉ p.1 ∧ '\n' ∉ p.1 ∧
      p.1.head? ≠ some '#' ∧
      p.1.head?.all (fun c => !pyIsSpace c) = true)
    (hv : ∀ p ∈ M, '=' ∉ p.2 ∧ '\n' ∉ p.2 ∧
      p.2.getLast?.all (fun c => !pyIsSpace c) = true) :
    (upload_parse false (splitLines (write_env_content M))).config
      = M.map (fun p => (p.1, some p.2)) := by
  have hsplit : splitLines (write_env_content M)
      = M.map (fun p => p.1 ++ '=' :: p.2) := by
    rw [splitLines, write_env_content]
    refine List.splitOn_intercalate _ '\n' ?_ ?_
    · intro l hl
      rw [List.mem_map] at hl
      obtain ⟨p, hp, rfl⟩ := hl
      rw [List.mem_append, List.mem_cons]
      push_neg
      exact ⟨(hk p hp).2.2.1, by decide, (hv p hp).2.1⟩
    · simpa using hne
  unfold upload_parse
  rw [hsplit,
    foldl_kv_lines M []
      (fun p hp => ⟨(hk p hp).1, (hk p hp).2.1, (hk p hp).2.2.2.1,
        (hk p hp).2.2.2.2⟩)
      (fun p hp => (hv p hp).2.2) hnd (by simp)]
  simp

/-- C2 witness: the round trip at the concrete mapping {A: "1", B: ""}. -/
theorem C2_roundtrip_witness :
    (upload_parse false
      (splitLines
        (write_env_content
          [("A".toList, "1".toList), ("B".toList, [])]))).config
      = [("A".toList, some "1".toList), ("B".toList, some [])] :=
  C2_write_parse_roundtrip [("A".toList, "1".toList), ("B".toList, [])]
    (by decide) (by decide) (by decide) (by decide)
